import Mathlib

/-!
Verification of the bulk-synchronization core of mongoose-elasticsearch-xp
(src/index.js) against its natural-language specification.

The embedding is shallow: each function of src/index.js that the checked
properties mention becomes a Lean definition over explicit state, and the
asynchronous callback/event structure is modelled as the finite trace of
events the single-threaded scheduler produces.  The Bulker (lib/bulker.js)
is not under src/ and is modelled from the spec where needed.
-/

namespace MongooseEsXp

/-- Prefix test on character lists, used to embed the JavaScript
String.indexOf substring search. -/
def hasPrefixL : List Char → List Char → Bool
  | [], _ => true
  | _ :: _, [] => false
  | a :: as, b :: bs => a == b && hasPrefixL as bs

/-- Substring test on character lists: containsSubL needle hay is true iff
needle occurs contiguously in hay (JavaScript hay.indexOf(needle) > -1). -/
def containsSubL (needle : List Char) : List Char → Bool
  | [] => hasPrefixL needle []
  | c :: cs => hasPrefixL needle (c :: cs) || containsSubL needle cs

/-- Embeds the not-found test of src/index.js line 301:
err.message.indexOf(String.mk [4,0,4 digits]) > -1, i.e. the error message
contains the substring 404. -/
def messageIndicates404 (msg : String) : Bool :=
  containsSubL "404".toList msg.toList

/-- Observable events of one run of the retryable delete: an attempt is one
call to client.delete, a backoffDelay is one setTimeout wait, and
callbackInvoked is the terminal invocation of the user callback with the
final error (none meaning success). -/
inductive DeleteEvent
  | attempt
  | backoffDelay (ms : Nat)
  | callbackInvoked (err : Option String)
  deriving DecidableEq

/-- Embeds deleteByMongoId (src/index.js lines 293-314).  The elasticsearch
delete endpoint is modelled by the list of responses it gives to successive
attempts (none = success, some msg = an error whose message is msg); once
the list is exhausted further attempts succeed.  Mirrors the source: when
the response is an error whose message contains 404 and the retry budget is
positive, wait 500ms and recurse with retry - 1; in every other case invoke
the callback with the response. -/
def deleteByMongoId (retry : Nat) (responses : List (Option String)) : List DeleteEvent :=
  match retry, responses.headD none with
  | _, none => [DeleteEvent.attempt, DeleteEvent.callbackInvoked none]
  | 0, some msg => [DeleteEvent.attempt, DeleteEvent.callbackInvoked (some msg)]
  | r + 1, some msg =>
    if messageIndicates404 msg then
      DeleteEvent.attempt :: DeleteEvent.backoffDelay 500 ::
        deleteByMongoId r responses.tail
    else
      [DeleteEvent.attempt, DeleteEvent.callbackInvoked (some msg)]

/-- Embeds removeDoc (src/index.js lines 278-283): the esRemove document
method calls deleteByMongoId with the retry budget 3. -/
def removeDoc (responses : List (Option String)) : List DeleteEvent :=
  deleteByMongoId 3 responses

/-- True on a backoff-delay event. -/
def isBackoff : DeleteEvent → Bool
  | DeleteEvent.backoffDelay _ => true
  | _ => false

/-- The backoff delays, in order, of a delete run. -/
def deleteDelays (evs : List DeleteEvent) : List Nat :=
  evs.filterMap fun e =>
    match e with
    | DeleteEvent.backoffDelay ms => some ms
    | _ => none

/-- The callback invocations, in order, of a delete run. -/
def deleteCallbacks (evs : List DeleteEvent) : List (Option String) :=
  evs.filterMap fun e =>
    match e with
    | DeleteEvent.callbackInvoked r => some r
    | _ => none

/-- The number of delete attempts issued during a delete run. -/
def deleteAttemptCount (evs : List DeleteEvent) : Nat :=
  (evs.filter fun e =>
    match e with
    | DeleteEvent.attempt => true
    | _ => false).length

/-- The error message used to model an engine-reported missing document. -/
def notFoundMessage : String := "404"

/-- An engine that reports not-found exactly k times and then succeeds. -/
def notFoundThenOk (k : Nat) : List (Option String) :=
  List.replicate k (some notFoundMessage)

/-- A record from the primary store; only the primary key matters to the
synchronization pipeline. -/
structure Doc where
  id : Nat
  deriving DecidableEq

/-- An elasticsearch bulk index operation as pushed by the data handler
(src/index.js lines 227-230): the action header carrying the document id,
with the serialized body. -/
structure Operation where
  docId : Nat
  deriving DecidableEq

/-- The index operation synchronize builds for one record. -/
def mkIndexOperation (d : Doc) : Operation :=
  { docId := d.id }

/-- Modelled from the spec: lib/bulker.js is not under src/.  The pending
batch of the Bulk Queue is bounded by a configured maximum size, 50 when
unspecified. -/
def defaultBulkBound : Nat := 50

/-- Modelled from the spec: the Bulk Queue state is its configured size
bound and the pending batch of operations. -/
structure Bulker where
  bound : Nat
  pending : List Operation
  deriving DecidableEq

/-- Modelled from the spec: push appends the operation to the pending
batch; when this brings the batch to its size bound the batch is dispatched
at once (auto-flush).  The source binds the returned boolean to a variable
named sending and resumes the stream exactly when it is false
(src/index.js lines 227-234), and the spec requires the stream to be
resumed immediately exactly when the queue is not yet full, so the boolean
push returns is true exactly when the push filled the batch and a dispatch
began; the spec text describes the same bit with inverted polarity, as an
acceptance flag.  Result: (new queue state, the returned boolean, the
dispatched batch when the bound was reached). -/
def Bulker.push (b : Bulker) (op : Operation) : Bulker × Bool × Option (List Operation) :=
  let p := b.pending ++ [op]
  if b.bound ≤ p.length then
    ({ b with pending := [] }, true, some p)
  else
    ({ b with pending := p }, false, none)

/-- Modelled from the spec: flush force-dispatches the pending batch even
below the bound, and is a no-op when nothing is pending. -/
def Bulker.flush (b : Bulker) : Bulker × Option (List Operation) :=
  if b.pending.isEmpty then (b, none)
  else ({ b with pending := [] }, some b.pending)

/-- Modelled from the spec: filled is true iff the pending batch is
non-empty. -/
def Bulker.filled (b : Bulker) : Bool :=
  !b.pending.isEmpty

/-- Observable events of a synchronize run.  settled carries the outcome
the deferred promise is settled with (none resolves, some msg rejects). -/
inductive SyncEvent
  | streamPause
  | streamResume
  | esBulkData (d : Doc)
  | bulkDispatch (batch : List Operation)
  | esBulkSent (count : Nat)
  | esBulkError
  | listenersRemoved
  | indexRefresh
  | settled (outcome : Option String)
  deriving DecidableEq

/-- Embeds finalize (src/index.js lines 198-202): detach the two queue
listeners, then issue the index refresh, whose callback settles the
deferred outcome with the refresh result. -/
def finalizeEvents (refreshErr : Option String) : List SyncEvent :=
  [SyncEvent.listenersRemoved, SyncEvent.indexRefresh, SyncEvent.settled refreshErr]

/-- Embeds onError (src/index.js lines 204-211): emit es-bulk-error; if the
stream has already closed, finalize, otherwise resume the stream.  The
deferred outcome is never settled here except through finalize. -/
def onError (streamClosed : Bool) (refreshErr : Option String) : List SyncEvent :=
  SyncEvent.esBulkError ::
    (if streamClosed then finalizeEvents refreshErr else [SyncEvent.streamResume])

/-- Embeds onSent (src/index.js lines 213-220): emit es-bulk-sent with the
batch length; if the stream has already closed, finalize, otherwise resume
the stream. -/
def onSent (streamClosed : Bool) (refreshErr : Option String) (len : Nat) : List SyncEvent :=
  SyncEvent.esBulkSent len ::
    (if streamClosed then finalizeEvents refreshErr else [SyncEvent.streamResume])

/-- The stream flow-control actions the data handler itself performs
(src/index.js lines 225-235), as a function of the boolean push returned,
which the source binds to the variable sending: the handler pauses the
stream first and resumes it before returning exactly when that boolean is
false. -/
def dataHandlerImmediateActions (sending : Bool) : List SyncEvent :=
  SyncEvent.streamPause :: (if sending then [] else [SyncEvent.streamResume])

/-- One firing of the data handler (src/index.js lines 225-235) together
with the events of the bulk callback that the dispatch it may have begun
produces before the stream emits again: pause, push (a dispatch begins when
the batch filled), emit es-bulk-data, then either resume at once (no
dispatch) or resume from onSent/onError once the bulk call completes.
bulkOk gives the transport outcome of the n-th dispatched bulk call. -/
def syncDataStep (bulkOk : Nat → Bool) (refreshErr : Option String)
    (st : Bulker × Nat) (d : Doc) : (Bulker × Nat) × List SyncEvent :=
  let r := st.1.push (mkIndexOperation d)
  match r.2.2 with
  | none =>
    ((r.1, st.2),
      [SyncEvent.streamPause, SyncEvent.esBulkData d, SyncEvent.streamResume])
  | some batch =>
    ((r.1, st.2 + 1),
      SyncEvent.streamPause :: SyncEvent.bulkDispatch batch :: SyncEvent.esBulkData d ::
        (if bulkOk st.2 then onSent false refreshErr batch.length
         else onError false refreshErr))

/-- The data phase of a synchronize run: the stream emits the given records
in order, the data handler firing once per record. -/
def syncLoop (bulkOk : Nat → Bool) (refreshErr : Option String) :
    List Doc → Bulker × Nat → (Bulker × Nat) × List SyncEvent
  | [], st => (st, [])
  | d :: ds, st =>
    let r1 := syncDataStep bulkOk refreshErr st d
    let r2 := syncLoop bulkOk refreshErr ds r1.1
    (r2.1, r1.2 ++ r2.2)

/-- Embeds the stream close handler (src/index.js lines 237-244) and what
follows it: streamClosed becomes true; when the queue is filled a flush is
forced, its dispatch completes, and finalize runs from the resulting
onSent/onError; otherwise finalize runs at once. -/
def syncCloseStep (bulkOk : Nat → Bool) (refreshErr : Option String)
    (st : Bulker × Nat) : List SyncEvent :=
  if st.1.filled then
    match (st.1.flush).2 with
    | some batch =>
      SyncEvent.bulkDispatch batch ::
        (if bulkOk st.2 then onSent true refreshErr batch.length
         else onError true refreshErr)
    | none => finalizeEvents refreshErr
  else
    finalizeEvents refreshErr

/-- Embeds synchronize (src/index.js lines 175-247) as the trace of events
produced when the opened stream emits the given records in order and then
closes: the data handler runs once per record, the close handler drains the
queue, and finalize issues the single refresh whose outcome settles the
deferred result.  bound is the configured batch bound of the queue, bulkOk
the transport outcome of each dispatched bulk call, refreshErr the outcome
of the final refresh call. -/
def synchronize (bound : Nat) (docs : List Doc) (bulkOk : Nat → Bool)
    (refreshErr : Option String) : List SyncEvent :=
  let r := syncLoop bulkOk refreshErr docs ({ bound := bound, pending := [] }, 0)
  r.2 ++ syncCloseStep bulkOk refreshErr r.1

/-- The records carried by the es-bulk-data events of a trace, in order. -/
def dataDocs (evs : List SyncEvent) : List Doc :=
  evs.filterMap fun e =>
    match e with
    | SyncEvent.esBulkData d => some d
    | _ => none

/-- The number of bulk dispatches in a trace. -/
def dispatchCount (evs : List SyncEvent) : Nat :=
  (evs.filter fun e =>
    match e with
    | SyncEvent.bulkDispatch _ => true
    | _ => false).length

/-- The outcomes the deferred promise is settled with during a trace. -/
def settledOutcomes (evs : List SyncEvent) : List (Option String) :=
  evs.filterMap fun e =>
    match e with
    | SyncEvent.settled o => some o
    | _ => none

/-- The number of index refresh calls in a trace. -/
def refreshCount (evs : List SyncEvent) : Nat :=
  (evs.filter fun e =>
    match e with
    | SyncEvent.indexRefresh => true
    | _ => false).length

/-- The subtrace of data and refresh events, used to state that every data
event precedes the refresh. -/
def dataRefreshEvents (evs : List SyncEvent) : List SyncEvent :=
  evs.filter fun e =>
    match e with
    | SyncEvent.esBulkData _ => true
    | SyncEvent.indexRefresh => true
    | _ => false

/-- The plugin options object mutated by esOptions (src/index.js lines
7-39); constructed client and Bulker instances are identified by the
allocation ids handed out by a counter, so distinct instances are
distinguishable. -/
structure PluginOptions where
  indexName : Option String
  typeName : Option String
  clientId : Option Nat
  bulk : Bool
  bulkerId : Option Nat
  mappingSet : Bool
  deriving DecidableEq

/-- The options cell captured by the plugin closure, with the allocation
counter for freshly constructed client/Bulker instances. -/
structure OptionsState where
  options : PluginOptions
  nextId : Nat
  deriving DecidableEq

/-- Embeds esOptions (src/index.js lines 16-39): default the index to the
collection name and the type to the model name when unset; construct the
client only when none is present; construct a NEW Bulker on every call
when bulk options are configured (the assignment at lines 28-30 is not
guarded on an existing bulker); set the mapping when none is present; and
return a clone of the options object. -/
def esOptions (collectionName modelName : String) (s : OptionsState) :
    OptionsState × PluginOptions :=
  let o1 := { s.options with
    indexName := some (s.options.indexName.getD collectionName),
    typeName := some (s.options.typeName.getD modelName) }
  let p1 : PluginOptions × Nat :=
    match o1.clientId with
    | some _ => (o1, s.nextId)
    | none => ({ o1 with clientId := some s.nextId }, s.nextId + 1)
  let p2 : PluginOptions × Nat :=
    if p1.1.bulk then ({ p1.1 with bulkerId := some p1.2 }, p1.2 + 1)
    else p1
  let o3 := { p2.1 with mappingSet := true }
  ({ options := o3, nextId := p2.2 }, o3)

/-- The initial options state of a plugin configured with bulk options and
no preexisting client, bulker or mapping. -/
def freshBulkOptions : OptionsState :=
  { options := { indexName := none, typeName := none, clientId := none,
                 bulk := true, bulkerId := none, mappingSet := false },
    nextId := 0 }

/-- An effect a post hook can have: emitting a document event carrying the
outcome of the index-engine operation. -/
inductive HookEffect
  | emitEvent (evName : String) (err : Option String)
  deriving DecidableEq

/-- Embeds postSave (src/index.js lines 321-327): when a doc is present,
invoke esIndex and emit es-indexed on the doc with the outcome; nothing
else happens and nothing is returned to the persistence layer. -/
def postSave (doc : Option Doc) (esOutcome : Option String) : List HookEffect :=
  match doc with
  | none => []
  | some _ => [HookEffect.emitEvent "es-indexed" esOutcome]

/-- Embeds postRemove (src/index.js lines 334-340): when a doc is present,
invoke esRemove and emit es-removed on the doc with the outcome. -/
def postRemove (doc : Option Doc) (esOutcome : Option String) : List HookEffect :=
  match doc with
  | none => []
  | some _ => [HookEffect.emitEvent "es-removed" esOutcome]

/-- A primary-store save followed by its post hook: the primary outcome is
returned untouched and the hook contributes only its emitted effects. -/
def saveWithHook (primary : Except String Doc) (esOutcome : Option String) :
    Except String Doc × List HookEffect :=
  (primary,
    match primary with
    | Except.ok d => postSave (some d) esOutcome
    | Except.error _ => postSave none esOutcome)

/-- A primary-store remove followed by its post hook. -/
def removeWithHook (primary : Except String Doc) (esOutcome : Option String) :
    Except String Doc × List HookEffect :=
  (primary,
    match primary with
    | Except.ok d => postRemove (some d) esOutcome
    | Except.error _ => postRemove none esOutcome)

/-- The bulk section of the plugin options as read at src/index.js line
193; batch none models an absent property, and JavaScript treats a
configured 0 as falsy. -/
structure BulkConfig where
  batch : Option Nat
  deriving DecidableEq

/-- Embeds the read batch size choice of synchronize (src/index.js lines
193-194): when esOptions.bulk and esOptions.bulk.batch are both truthy the
size is bulk.batch, otherwise 50; the record stream is opened with
batchSize set to this value. -/
def syncReadBatchSize (bulk : Option BulkConfig) : Nat :=
  match bulk with
  | some cfg =>
    match cfg.batch with
    | some n => if n = 0 then 50 else n
    | none => 50
  | none => 50

theorem messageIndicates404_notFoundMessage : messageIndicates404 notFoundMessage = true := by
  decide

theorem deleteByMongoId_at_none (r : Nat) (rs : List (Option String))
    (h : rs.headD none = none) :
    deleteByMongoId r rs = [DeleteEvent.attempt, DeleteEvent.callbackInvoked none] := by
  rw [deleteByMongoId.eq_def, h]
  cases r <;> rfl

theorem deleteByMongoId_at_some_zero (rs : List (Option String)) (msg : String)
    (h : rs.headD none = some msg) :
    deleteByMongoId 0 rs = [DeleteEvent.attempt, DeleteEvent.callbackInvoked (some msg)] := by
  rw [deleteByMongoId.eq_def, h]

theorem deleteByMongoId_at_some_succ (r : Nat) (rs : List (Option String)) (msg : String)
    (h : rs.headD none = some msg) :
    deleteByMongoId (r + 1) rs =
      if messageIndicates404 msg then
        DeleteEvent.attempt :: DeleteEvent.backoffDelay 500 :: deleteByMongoId r rs.tail
      else
        [DeleteEvent.attempt, DeleteEvent.callbackInvoked (some msg)] := by
  rw [deleteByMongoId.eq_def, h]

theorem deleteByMongoId_success_case (k : Nat) :
    ∀ m : Nat, k ≤ m →
      deleteCallbacks (deleteByMongoId m (notFoundThenOk k)) = [none] ∧
      deleteDelays (deleteByMongoId m (notFoundThenOk k)) = List.replicate k 500 ∧
      deleteAttemptCount (deleteByMongoId m (notFoundThenOk k)) = k + 1 := by
  induction k with
  | zero =>
    intro m _
    cases m <;> simp [notFoundThenOk, deleteByMongoId, deleteCallbacks, deleteDelays,
      deleteAttemptCount]
  | succ k ih =>
    intro m hm
    cases m with
    | zero => omega
    | succ m =>
      have hk : k ≤ m := Nat.succ_le_succ_iff.mp hm
      have h1 := ih m hk
      simp only [notFoundThenOk, List.replicate_succ] at *
      simp [deleteByMongoId, messageIndicates404_notFoundMessage, deleteCallbacks,
        deleteDelays, deleteAttemptCount, List.filterMap_cons, List.filter_cons] at h1 ⊢
      refine ⟨h1.1, h1.2.1, ?_⟩
      omega

theorem deleteByMongoId_failure_case (m : Nat) :
    ∀ k : Nat, m < k →
      deleteCallbacks (deleteByMongoId m (notFoundThenOk k)) = [some notFoundMessage] ∧
      deleteDelays (deleteByMongoId m (notFoundThenOk k)) = List.replicate m 500 ∧
      deleteAttemptCount (deleteByMongoId m (notFoundThenOk k)) = m + 1 := by
  induction m with
  | zero =>
    intro k hk
    cases k with
    | zero => omega
    | succ k =>
      simp [notFoundThenOk, List.replicate_succ, deleteByMongoId, deleteCallbacks,
        deleteDelays, deleteAttemptCount]
  | succ m ih =>
    intro k hk
    cases k with
    | zero => omega
    | succ k =>
      have hm : m < k := Nat.succ_lt_succ_iff.mp hk
      have h1 := ih k hm
      simp only [notFoundThenOk, List.replicate_succ] at *
      simp [deleteByMongoId, messageIndicates404_notFoundMessage, deleteCallbacks,
        deleteDelays, deleteAttemptCount, List.filterMap_cons, List.filter_cons] at h1 ⊢
      refine ⟨h1.1, h1.2.1, ?_⟩
      omega

/-- C4: against an engine that reports not-found exactly K times and then
succeeds, deleteByMongoId with retry budget M >= K invokes the callback with
success after exactly K retries, each preceded by the fixed 500ms backoff;
with M < K it invokes the callback with the not-found error after exactly M
retries, each preceded by the 500ms backoff; and the public esRemove
operation (removeDoc) invokes deleteByMongoId with the default budget 3,
the backoff being the constant 500ms. -/
theorem deleteByMongoId_notFound_retry_spec (k m : Nat) :
    (k ≤ m →
      deleteCallbacks (deleteByMongoId m (notFoundThenOk k)) = [none] ∧
      deleteDelays (deleteByMongoId m (notFoundThenOk k)) = List.replicate k 500) ∧
    (m < k →
      deleteCallbacks (deleteByMongoId m (notFoundThenOk k)) = [some notFoundMessage] ∧
      deleteDelays (deleteByMongoId m (notFoundThenOk k)) = List.replicate m 500) ∧
    removeDoc (notFoundThenOk k) = deleteByMongoId 3 (notFoundThenOk k) := by
  refine ⟨fun h => ?_, fun h => ?_, rfl⟩
  · have := deleteByMongoId_success_case k m h
    exact ⟨this.1, this.2.1⟩
  · have := deleteByMongoId_failure_case m k h
    exact ⟨this.1, this.2.1⟩

theorem deleteByMongoId_notFound_retry_spec_witness :
    (deleteCallbacks (deleteByMongoId 3 (notFoundThenOk 2)) = [none] ∧
      deleteDelays (deleteByMongoId 3 (notFoundThenOk 2)) = List.replicate 2 500) ∧
    (deleteCallbacks (deleteByMongoId 2 (notFoundThenOk 3)) = [some notFoundMessage] ∧
      deleteDelays (deleteByMongoId 2 (notFoundThenOk 3)) = List.replicate 2 500) :=
  ⟨(deleteByMongoId_notFound_retry_spec 2 3).1 (by decide),
    (deleteByMongoId_notFound_retry_spec 3 2).2.1 (by decide)⟩

/-- C5: for a failing delete attempt, the retry path (a backoff followed by
a new attempt) is entered, when budget remains, exactly when the error
message contains the substring 404; any other failure is surfaced to the
callback immediately, with no retry and no backoff delay, whatever the
remaining budget is. -/
theorem deleteByMongoId_404_classification (msg : String) (rest : List (Option String))
    (r : Nat) :
    (0 < r →
      (deleteByMongoId r (some msg :: rest)).any isBackoff = messageIndicates404 msg) ∧
    (messageIndicates404 msg = false →
      deleteByMongoId r (some msg :: rest) =
        [DeleteEvent.attempt, DeleteEvent.callbackInvoked (some msg)]) := by
  constructor
  · intro hr
    cases r with
    | zero => omega
    | succ r =>
      cases h404 : messageIndicates404 msg <;>
        simp [deleteByMongoId, h404, isBackoff]
  · intro h404
    cases r <;> simp [deleteByMongoId, h404]

theorem deleteByMongoId_404_classification_witness :
    ((deleteByMongoId 1 [some "404"]).any isBackoff = messageIndicates404 "404") ∧
    deleteByMongoId 2 [some "boom"] =
      [DeleteEvent.attempt, DeleteEvent.callbackInvoked (some "boom")] :=
  ⟨(deleteByMongoId_404_classification "404" [] 1).1 (by decide),
    (deleteByMongoId_404_classification "boom" [] 2).2 (by decide)⟩

/-- C10: the retryable delete terminates for every engine behavior and every
initial budget R: the budget strictly decreases across recursive calls, so
at most R + 1 attempts are issued, at least one attempt is issued, and the
callback is invoked exactly once on every terminal path. -/
theorem deleteByMongoId_terminates_bounded (r : Nat) :
    ∀ responses : List (Option String),
      1 ≤ deleteAttemptCount (deleteByMongoId r responses) ∧
      deleteAttemptCount (deleteByMongoId r responses) ≤ r + 1 ∧
      (deleteCallbacks (deleteByMongoId r responses)).length = 1 := by
  induction r with
  | zero =>
    intro responses
    match h : responses.headD none with
    | none =>
      rw [deleteByMongoId_at_none 0 responses h]
      simp [deleteAttemptCount, deleteCallbacks]
    | some msg =>
      rw [deleteByMongoId_at_some_zero responses msg h]
      simp [deleteAttemptCount, deleteCallbacks]
  | succ r ih =>
    intro responses
    match h : responses.headD none with
    | none =>
      rw [deleteByMongoId_at_none (r + 1) responses h]
      simp [deleteAttemptCount, deleteCallbacks]
    | some msg =>
      rw [deleteByMongoId_at_some_succ r responses msg h]
      cases h404 : messageIndicates404 msg
      · simp [deleteAttemptCount, deleteCallbacks]
      · have h1 := ih responses.tail
        simp [deleteAttemptCount, deleteCallbacks, List.filter_cons,
          List.filterMap_cons] at h1 ⊢
        omega

theorem dispatchCount_append (a b : List SyncEvent) :
    dispatchCount (a ++ b) = dispatchCount a + dispatchCount b := by
  simp [dispatchCount, List.filter_append]

theorem refreshCount_append (a b : List SyncEvent) :
    refreshCount (a ++ b) = refreshCount a + refreshCount b := by
  simp [refreshCount, List.filter_append]

theorem settledOutcomes_append (a b : List SyncEvent) :
    settledOutcomes (a ++ b) = settledOutcomes a ++ settledOutcomes b := by
  simp [settledOutcomes]

theorem dataDocs_append (a b : List SyncEvent) :
    dataDocs (a ++ b) = dataDocs a ++ dataDocs b := by
  simp [dataDocs]

theorem dataRefreshEvents_append (a b : List SyncEvent) :
    dataRefreshEvents (a ++ b) = dataRefreshEvents a ++ dataRefreshEvents b := by
  simp [dataRefreshEvents]

theorem syncDataStep_full (bulkOk : Nat → Bool) (refreshErr : Option String)
    (b : Bulker) (n : Nat) (d : Doc) (hfull : b.bound ≤ b.pending.length + 1) :
    syncDataStep bulkOk refreshErr (b, n) d =
      (({ b with pending := [] }, n + 1),
        SyncEvent.streamPause ::
          SyncEvent.bulkDispatch (b.pending ++ [mkIndexOperation d]) ::
          SyncEvent.esBulkData d ::
          (if bulkOk n then onSent false refreshErr (b.pending.length + 1)
           else onError false refreshErr)) := by
  simp [syncDataStep, Bulker.push, hfull]

theorem syncDataStep_notFull (bulkOk : Nat → Bool) (refreshErr : Option String)
    (b : Bulker) (n : Nat) (d : Doc) (h : ¬ b.bound ≤ b.pending.length + 1) :
    syncDataStep bulkOk refreshErr (b, n) d =
      (({ b with pending := b.pending ++ [mkIndexOperation d] }, n),
        [SyncEvent.streamPause, SyncEvent.esBulkData d, SyncEvent.streamResume]) := by
  simp [syncDataStep, Bulker.push, h]

theorem syncDataStep_projections (bulkOk : Nat → Bool) (refreshErr : Option String)
    (st : Bulker × Nat) (d : Doc) :
    settledOutcomes (syncDataStep bulkOk refreshErr st d).2 = [] ∧
    refreshCount (syncDataStep bulkOk refreshErr st d).2 = 0 ∧
    dataDocs (syncDataStep bulkOk refreshErr st d).2 = [d] ∧
    dataRefreshEvents (syncDataStep bulkOk refreshErr st d).2 = [SyncEvent.esBulkData d] := by
  obtain ⟨b, n⟩ := st
  by_cases hfull : b.bound ≤ b.pending.length + 1
  · rw [syncDataStep_full bulkOk refreshErr b n d hfull]
    cases hOk : bulkOk n <;>
      simp [onSent, onError, settledOutcomes, refreshCount, dataDocs, dataRefreshEvents]
  · rw [syncDataStep_notFull bulkOk refreshErr b n d hfull]
    simp [settledOutcomes, refreshCount, dataDocs, dataRefreshEvents]

theorem syncLoop_settled (bulkOk : Nat → Bool) (refreshErr : Option String)
    (docs : List Doc) :
    ∀ st : Bulker × Nat,
      settledOutcomes (syncLoop bulkOk refreshErr docs st).2 = [] := by
  induction docs with
  | nil => intro st; simp [syncLoop, settledOutcomes]
  | cons d ds ih =>
    intro st
    simp only [syncLoop]
    rw [settledOutcomes_append, (syncDataStep_projections bulkOk refreshErr st d).1, ih]
    rfl

theorem syncLoop_refresh (bulkOk : Nat → Bool) (refreshErr : Option String)
    (docs : List Doc) :
    ∀ st : Bulker × Nat,
      refreshCount (syncLoop bulkOk refreshErr docs st).2 = 0 := by
  induction docs with
  | nil => intro st; simp [syncLoop, refreshCount]
  | cons d ds ih =>
    intro st
    simp only [syncLoop]
    rw [refreshCount_append, (syncDataStep_projections bulkOk refreshErr st d).2.1, ih]

theorem syncLoop_dataDocs (bulkOk : Nat → Bool) (refreshErr : Option String)
    (docs : List Doc) :
    ∀ st : Bulker × Nat,
      dataDocs (syncLoop bulkOk refreshErr docs st).2 = docs ∧
      dataRefreshEvents (syncLoop bulkOk refreshErr docs st).2 =
        docs.map SyncEvent.esBulkData := by
  induction docs with
  | nil => intro st; simp [syncLoop, dataDocs, dataRefreshEvents]
  | cons d ds ih =>
    intro st
    simp only [syncLoop, List.map_cons]
    constructor
    · rw [dataDocs_append, (syncDataStep_projections bulkOk refreshErr st d).2.2.1,
        (ih _).1]
      rfl
    · rw [dataRefreshEvents_append, (syncDataStep_projections bulkOk refreshErr st d).2.2.2,
        (ih _).2]
      rfl

theorem syncLoop_state_spec (bulkOk : Nat → Bool) (refreshErr : Option String)
    (docs : List Doc) :
    ∀ (b : Bulker) (n : Nat), b.pending.length < b.bound →
      (syncLoop bulkOk refreshErr docs (b, n)).1.1.bound = b.bound ∧
      (syncLoop bulkOk refreshErr docs (b, n)).1.1.pending.length =
        (b.pending.length + docs.length) % b.bound ∧
      dispatchCount (syncLoop bulkOk refreshErr docs (b, n)).2 =
        (b.pending.length + docs.length) / b.bound := by
  induction docs with
  | nil =>
    intro b n hb
    have h1 : b.pending.length % b.bound = b.pending.length := Nat.mod_eq_of_lt hb
    have h2 : b.pending.length / b.bound = 0 := Nat.div_eq_of_lt hb
    simp [syncLoop, dispatchCount, h1, h2]
  | cons d ds ih =>
    intro b n hb
    simp only [syncLoop]
    by_cases hfull : b.bound ≤ b.pending.length + 1
    · have hbound : b.pending.length + 1 = b.bound := by omega
      rw [syncDataStep_full bulkOk refreshErr b n d hfull]
      have hlt : ([] : List Operation).length < b.bound := by simp; omega
      obtain ⟨ih1, ih2, ih3⟩ := ih { b with pending := [] } (n + 1) hlt
      simp only at ih1 ih2 ih3
      refine ⟨ih1, ?_, ?_⟩
      · rw [ih2]
        have e : b.pending.length + (ds.length + 1) = ds.length + b.bound := by omega
        simp only [List.length_cons, List.length_nil, Nat.zero_add, e]
        rw [Nat.add_mod_right]
      · rw [dispatchCount_append, ih3]
        have e : b.pending.length + (ds.length + 1) = ds.length + b.bound := by omega
        simp only [List.length_cons, List.length_nil, Nat.zero_add, e]
        rw [Nat.add_div_right _ (by omega : 0 < b.bound)]
        cases hOk : bulkOk n <;>
          simp [onSent, onError, dispatchCount] <;> omega
    · rw [syncDataStep_notFull bulkOk refreshErr b n d hfull]
      have hlt : (b.pending ++ [mkIndexOperation d]).length < b.bound := by
        simp; omega
      obtain ⟨ih1, ih2, ih3⟩ := ih { b with pending := b.pending ++ [mkIndexOperation d] } n hlt
      simp only [List.length_append, List.length_cons, List.length_nil] at ih1 ih2 ih3
      refine ⟨ih1, ?_, ?_⟩
      · rw [ih2]
        have e : b.pending.length + 1 + ds.length = b.pending.length + (ds.length + 1) := by
          omega
        simp only [List.length_cons, e]
      · rw [dispatchCount_append, ih3]
        have e : b.pending.length + 1 + ds.length = b.pending.length + (ds.length + 1) := by
          omega
        simp only [List.length_cons, e, dispatchCount]
        simp

theorem syncCloseStep_spec (bulkOk : Nat → Bool) (refreshErr : Option String)
    (b : Bulker) (n : Nat) :
    dispatchCount (syncCloseStep bulkOk refreshErr (b, n)) =
      (if b.pending.length = 0 then 0 else 1) ∧
    dataRefreshEvents (syncCloseStep bulkOk refreshErr (b, n)) = [SyncEvent.indexRefresh] ∧
    settledOutcomes (syncCloseStep bulkOk refreshErr (b, n)) = [refreshErr] ∧
    refreshCount (syncCloseStep bulkOk refreshErr (b, n)) = 1 ∧
    dataDocs (syncCloseStep bulkOk refreshErr (b, n)) = [] := by
  cases hp : b.pending with
  | nil =>
    simp [syncCloseStep, Bulker.filled, Bulker.flush, hp, finalizeEvents,
      dispatchCount, dataRefreshEvents, settledOutcomes, refreshCount, dataDocs]
  | cons op ops =>
    cases hOk : bulkOk n <;>
      simp [syncCloseStep, Bulker.filled, Bulker.flush, hp, hOk, onSent, onError,
        finalizeEvents, dispatchCount, dataRefreshEvents, settledOutcomes,
        refreshCount, dataDocs]

theorem div_ceil_split (N B : Nat) (hB : 0 < B) :
    N / B + (if N % B = 0 then 0 else 1) = (N + B - 1) / B := by
  have hNe : B * (N / B) + N % B = N := Nat.div_add_mod N B
  have hrB : N % B < B := Nat.mod_lt N hB
  by_cases h0 : N % B = 0
  · rw [if_pos h0]
    have e : N + B - 1 = B * (N / B) + (B - 1) := by omega
    rw [e, Nat.mul_add_div hB, Nat.div_eq_of_lt (by omega : B - 1 < B)]
  · rw [if_neg h0]
    have e : N + B - 1 = B * (N / B + 1) + (N % B - 1) := by
      rw [Nat.mul_succ]
      omega
    rw [e, Nat.mul_add_div hB, Nat.div_eq_of_lt (by omega : N % B - 1 < B)]

/-- C1 fails on the code: a push that fills the batch returns true and the
data handler then performs no immediate resume, while a push that leaves
the batch below its bound returns false and the handler resumes the stream
immediately — the opposite of the claimed direction in both cases. -/
theorem dataHandler_resume_counterexample :
    ((Bulker.mk 1 []).push (mkIndexOperation (Doc.mk 0))).2.1 = true ∧
    SyncEvent.streamResume ∉
      dataHandlerImmediateActions ((Bulker.mk 1 []).push (mkIndexOperation (Doc.mk 0))).2.1 ∧
    ((Bulker.mk 50 []).push (mkIndexOperation (Doc.mk 0))).2.1 = false ∧
    SyncEvent.streamResume ∈
      dataHandlerImmediateActions ((Bulker.mk 50 []).push (mkIndexOperation (Doc.mk 0))).2.1 := by
  decide

/-- C1 amended: the data handler pauses the stream before pushing and
resumes it immediately if and only if push returned false (no dispatch was
begun, the queue is not yet full); when push returns true the stream stays
paused and is resumed by the sent or error handler once the bulk call
completes. -/
theorem dataHandler_pause_resume_spec (sending : Bool) (r : Option String) (len : Nat) :
    (dataHandlerImmediateActions sending).head? = some SyncEvent.streamPause ∧
    (SyncEvent.streamResume ∈ dataHandlerImmediateActions sending ↔ sending = false) ∧
    SyncEvent.streamResume ∈ onSent false r len ∧
    SyncEvent.streamResume ∈ onError false r := by
  cases sending <;>
    simp [dataHandlerImmediateActions, onSent, onError, finalizeEvents]

/-- C6 fails on the code: starting from a plugin configured with bulk
options, two successive esOptions calls hand out two distinct Bulker
instances, because the assignment at src/index.js lines 28-30 constructs a
new Bulker on every call instead of reusing an existing one. -/
theorem esOptions_not_shared_counterexample :
    (esOptions "users" "user" freshBulkOptions).2.bulkerId ≠
      (esOptions "users" "user" (esOptions "users" "user" freshBulkOptions).1).2.bulkerId := by
  decide

/-- C6 amended: when bulk options are set, every esOptions call constructs
a fresh Bulker instance, so consecutive calls yield distinct bulkers and
each synchronize invocation obtains its own queue rather than a shared
one. -/
theorem esOptions_fresh_bulker_per_call (c m : String) (s : OptionsState)
    (h : s.options.bulk = true) :
    ∃ n1 n2 : Nat,
      (esOptions c m s).2.bulkerId = some n1 ∧
      (esOptions c m (esOptions c m s).1).2.bulkerId = some n2 ∧
      n1 ≠ n2 := by
  cases hc : s.options.clientId with
  | none =>
    refine ⟨s.nextId + 1, s.nextId + 2, ?_, ?_, by omega⟩ <;>
      simp [esOptions, hc, h]
  | some cid =>
    refine ⟨s.nextId, s.nextId + 1, ?_, ?_, by omega⟩ <;>
      simp [esOptions, hc, h]

theorem esOptions_fresh_bulker_per_call_witness :
    ∃ n1 n2 : Nat,
      (esOptions "users" "user" freshBulkOptions).2.bulkerId = some n1 ∧
      (esOptions "users" "user" (esOptions "users" "user" freshBulkOptions).1).2.bulkerId =
        some n2 ∧
      n1 ≠ n2 :=
  esOptions_fresh_bulker_per_call "users" "user" freshBulkOptions rfl

/-- C2: a transport-level bulk error never settles the synchronize
outcome: the full trace settles exactly once, with the outcome of the
final refresh call, whatever the bulk transport outcomes were; the onError
handler emits the es-bulk-error notification and resumes the stream while
it is still open, and proceeds to finalize once the stream has ended. -/
theorem synchronize_only_refresh_settles (bound : Nat) (docs : List Doc)
    (bulkOk : Nat → Bool) (refreshErr : Option String) :
    settledOutcomes (synchronize bound docs bulkOk refreshErr) = [refreshErr] ∧
    (∀ r : Option String,
      onError false r = [SyncEvent.esBulkError, SyncEvent.streamResume]) ∧
    (∀ r : Option String,
      onError true r = SyncEvent.esBulkError :: finalizeEvents r) := by
  refine ⟨?_, fun r => rfl, fun r => rfl⟩
  rw [synchronize]
  simp only [settledOutcomes_append, syncLoop_settled,
    (syncCloseStep_spec bulkOk refreshErr _ _).2.2.1]
  rfl

/-- C3: when the stream closes with a non-empty pending batch the
controller forces one flush, dispatching exactly the pending operations,
and finalize runs only after the sent or error event of that dispatch;
with an empty pending batch finalize runs immediately; finalize detaches
the two listeners and issues the refresh, and a whole synchronize run
contains exactly one refresh call, whether the last batch was auto-flushed
or force-flushed. -/
theorem synchronize_close_and_single_refresh (bulkOk : Nat → Bool)
    (refreshErr : Option String) (b : Bulker) (n : Nat) (bound : Nat) (docs : List Doc) :
    (b.filled = true →
      syncCloseStep bulkOk refreshErr (b, n) =
        SyncEvent.bulkDispatch b.pending ::
          (if bulkOk n then onSent true refreshErr b.pending.length
           else onError true refreshErr)) ∧
    (b.filled = false →
      syncCloseStep bulkOk refreshErr (b, n) = finalizeEvents refreshErr) ∧
    (∀ (r : Option String) (len : Nat),
      onSent true r len = SyncEvent.esBulkSent len :: finalizeEvents r) ∧
    (∀ r : Option String, onError true r = SyncEvent.esBulkError :: finalizeEvents r) ∧
    finalizeEvents refreshErr =
      [SyncEvent.listenersRemoved, SyncEvent.indexRefresh, SyncEvent.settled refreshErr] ∧
    refreshCount (synchronize bound docs bulkOk refreshErr) = 1 := by
  refine ⟨?_, ?_, fun r len => rfl, fun r => rfl, rfl, ?_⟩
  · intro hfilled
    cases hp : b.pending with
    | nil => simp [Bulker.filled, hp] at hfilled
    | cons op ops =>
      cases hOk : bulkOk n <;>
        simp [syncCloseStep, Bulker.filled, Bulker.flush, hp, hOk]
  · intro hempty
    cases hp : b.pending with
    | nil => simp [syncCloseStep, Bulker.filled, hp]
    | cons op ops => simp [Bulker.filled, hp] at hempty
  · rw [synchronize]
    simp only [refreshCount_append, syncLoop_refresh,
      (syncCloseStep_spec bulkOk refreshErr _ _).2.2.2.1]

theorem synchronize_close_and_single_refresh_witness :
    (syncCloseStep (fun _ => true) none (Bulker.mk 50 [Operation.mk 1], 0) =
      SyncEvent.bulkDispatch [Operation.mk 1] ::
        (if (fun _ : Nat => true) 0 then onSent true none ([Operation.mk 1]).length
         else onError true none)) ∧
    (syncCloseStep (fun _ => true) none (Bulker.mk 50 [], 0) = finalizeEvents none) ∧
    refreshCount (synchronize 50 [Doc.mk 1, Doc.mk 2] (fun _ => true) none) = 1 :=
  ⟨(synchronize_close_and_single_refresh (fun _ => true) none
      (Bulker.mk 50 [Operation.mk 1]) 0 50 []).1 (by decide),
    (synchronize_close_and_single_refresh (fun _ => true) none
      (Bulker.mk 50 []) 0 50 []).2.1 (by decide),
    (synchronize_close_and_single_refresh (fun _ => true) none
      (Bulker.mk 50 []) 0 50 [Doc.mk 1, Doc.mk 2]).2.2.2.2.2⟩

/-- C7: for a stream of N records consumed with batch bound B > 0,
synchronize dispatches exactly ceil(N/B) batches, and the trace restricted
to data and refresh events consists of the N es-bulk-data notifications,
one per record and in stream order, followed by the single refresh: every
data notification is emitted before finalize runs. -/
theorem synchronize_batches_and_data (bound : Nat) (docs : List Doc)
    (bulkOk : Nat → Bool) (refreshErr : Option String) (hB : 0 < bound) :
    dispatchCount (synchronize bound docs bulkOk refreshErr) =
      (docs.length + bound - 1) / bound ∧
    dataDocs (synchronize bound docs bulkOk refreshErr) = docs ∧
    dataRefreshEvents (synchronize bound docs bulkOk refreshErr) =
      docs.map SyncEvent.esBulkData ++ [SyncEvent.indexRefresh] := by
  have hstart : (Bulker.mk bound []).pending.length < (Bulker.mk bound []).bound := by
    simpa using hB
  obtain ⟨hA, hP, hD⟩ :=
    syncLoop_state_spec bulkOk refreshErr docs (Bulker.mk bound []) 0 hstart
  simp only [List.length_nil, Nat.zero_add] at hP hD
  obtain ⟨hc1, hc2, hc3, hc4, hc5⟩ :=
    syncCloseStep_spec bulkOk refreshErr
      (syncLoop bulkOk refreshErr docs (Bulker.mk bound [], 0)).1.1
      (syncLoop bulkOk refreshErr docs (Bulker.mk bound [], 0)).1.2
  refine ⟨?_, ?_, ?_⟩
  · rw [synchronize]
    simp only [dispatchCount_append, hD]
    have hclose : dispatchCount
        (syncCloseStep bulkOk refreshErr
          (syncLoop bulkOk refreshErr docs (Bulker.mk bound [], 0)).1) =
        (if docs.length % bound = 0 then 0 else 1) := by
      rw [← Prod.mk.eta
        (p := (syncLoop bulkOk refreshErr docs (Bulker.mk bound [], 0)).1)]
      rw [hc1, hP]
    rw [hclose]
    exact div_ceil_split docs.length bound hB
  · rw [synchronize]
    simp only [dataDocs_append, (syncLoop_dataDocs bulkOk refreshErr docs _).1]
    have : dataDocs
        (syncCloseStep bulkOk refreshErr
          (syncLoop bulkOk refreshErr docs (Bulker.mk bound [], 0)).1) = [] := by
      rw [← Prod.mk.eta
        (p := (syncLoop bulkOk refreshErr docs (Bulker.mk bound [], 0)).1)]
      exact hc5
    rw [this, List.append_nil]
  · rw [synchronize]
    simp only [dataRefreshEvents_append, (syncLoop_dataDocs bulkOk refreshErr docs _).2]
    have : dataRefreshEvents
        (syncCloseStep bulkOk refreshErr
          (syncLoop bulkOk refreshErr docs (Bulker.mk bound [], 0)).1) =
        [SyncEvent.indexRefresh] := by
      rw [← Prod.mk.eta
        (p := (syncLoop bulkOk refreshErr docs (Bulker.mk bound [], 0)).1)]
      exact hc2
    rw [this]

theorem synchronize_batches_and_data_witness :
    dispatchCount (synchronize 2 [Doc.mk 1, Doc.mk 2, Doc.mk 3] (fun _ => true) none) =
      (([Doc.mk 1, Doc.mk 2, Doc.mk 3].length) + 2 - 1) / 2 ∧
    dataDocs (synchronize 2 [Doc.mk 1, Doc.mk 2, Doc.mk 3] (fun _ => true) none) =
      [Doc.mk 1, Doc.mk 2, Doc.mk 3] ∧
    dataRefreshEvents (synchronize 2 [Doc.mk 1, Doc.mk 2, Doc.mk 3] (fun _ => true) none) =
      [Doc.mk 1, Doc.mk 2, Doc.mk 3].map SyncEvent.esBulkData ++ [SyncEvent.indexRefresh] :=
  synchronize_batches_and_data 2 [Doc.mk 1, Doc.mk 2, Doc.mk 3] (fun _ => true) none
    (by decide)

/-- C8: the post-save and post-remove hooks never fail or alter the
outcome of the triggering persistence operation, and the outcome of the
index/delete call — success or error — is reported only through the
es-indexed / es-removed emission. -/
theorem postHooks_never_affect_persistence (primary : Except String Doc)
    (esOutcome : Option String) :
    (saveWithHook primary esOutcome).1 = primary ∧
    (removeWithHook primary esOutcome).1 = primary ∧
    (∀ d : Doc, postSave (some d) esOutcome = [HookEffect.emitEvent "es-indexed" esOutcome]) ∧
    (∀ d : Doc, postRemove (some d) esOutcome = [HookEffect.emitEvent "es-removed" esOutcome]) ∧
    postSave none esOutcome = [] ∧
    postRemove none esOutcome = [] :=
  ⟨rfl, rfl, fun _ => rfl, fun _ => rfl, rfl, rfl⟩

/-- C9: synchronize opens the record stream with a read batch size equal to
the configured bulk batch size when a positive one is set, and 50 when the
bulk options or the batch size are unspecified — the same 50 that is the
default bound of a batch in the queue. -/
theorem syncReadBatchSize_spec (n : Nat) (hn : 0 < n) :
    syncReadBatchSize (some { batch := some n }) = n ∧
    syncReadBatchSize (some { batch := none }) = 50 ∧
    syncReadBatchSize none = 50 ∧
    syncReadBatchSize none = defaultBulkBound := by
  refine ⟨?_, rfl, rfl, rfl⟩
  simp only [syncReadBatchSize]
  rw [if_neg (by omega)]

theorem syncReadBatchSize_spec_witness :
    syncReadBatchSize (some { batch := some 20 }) = 20 ∧
    syncReadBatchSize (some { batch := none }) = 50 ∧
    syncReadBatchSize none = 50 ∧
    syncReadBatchSize none = defaultBulkBound :=
  syncReadBatchSize_spec 20 (by decide)

end MongooseEsXp
